import Mathlib

/-!
# Verification of the spotify-api.js client library specification

Shallow embedding of the library's manager classes (`PlaylistManager` from
`managers/Playlist.ts`, both versions present in the tree; the legacy `lib/Artist.ts`
class; the legacy `dist/Client.js` client) together with proofs of the specification
claims about them.

Conventions of the embedding:
* The HTTP layer is an environment: each method receives the response the upstream
  would give to its single `fetch` call as an `Except HttpError _` argument, and
  returns, besides its result, the list of requests it actually issued, so that
  "how many HTTP calls happened" is observable (a cache hit issues none).
* JavaScript promise executors that may call `reject` and then keep running are
  embedded by their first settlement, which is the observable behaviour.
* Mutable JS objects become functional records; a field assignment becomes a
  functional update of the record.
-/

namespace SpotifyApiJs

/-- JSON-ish values appearing in request query parameters and bodies. `undefined` is the
JavaScript `undefined` that a key bound to a missing optional field carries. -/
inductive JVal where
  | str (s : String)
  | num (n : Int)
  | bool (b : Bool)
  | strList (xs : List String)
  | undefined
deriving DecidableEq, Repr

/-- JavaScript truthiness restricted to the values of `JVal`: `0`, `""`, `false` and
`undefined` are falsy; arrays are always truthy. -/
def JVal.truthy : JVal → Bool
  | .str s => !(s == "")
  | .num n => !(n == 0)
  | .bool b => b
  | .strList _ => true
  | .undefined => false

/-- A JavaScript object literal as an ordered key/value list (JS objects preserve
insertion order). -/
abbrev RawObject := List (String × JVal)

/-- Assignment `o[k] = v` on a JS object: replaces the value in place when the key is
already present, otherwise appends the key at the end. -/
def objSet (o : RawObject) (k : String) (v : JVal) : RawObject :=
  if o.any (fun p => p.1 == k) then
    o.map (fun p => if p.1 == k then (k, v) else p)
  else
    o ++ [(k, v)]

/-- The object literal `{...o, k₁: v₁, ..., kₙ: vₙ}`: the keys of `kvs` are assigned
into `o` from left to right. -/
def spread (o : RawObject) (kvs : RawObject) : RawObject :=
  kvs.foldl (fun acc kv => objSet acc kv.1 kv.2) o

/-- Lift an optional TS number field to the `JVal` a JS object literal stores for it
(missing fields become `undefined`). -/
def optNum : Option Int → JVal
  | some n => .num n
  | none => .undefined

/-- Lift an optional TS string field to the `JVal` a JS object literal stores for it. -/
def optStr : Option String → JVal
  | some s => .str s
  | none => .undefined

/-- HTTP request methods used by the library. -/
inductive HttpMethod where
  | GET
  | POST
  | PUT
  | DELETE
deriving DecidableEq, Repr

/-- A request body: either a JSON object or a raw payload string (the jpeg data of
`uploadImage`). -/
inductive ReqBody where
  | obj (o : RawObject)
  | raw (s : String)
deriving DecidableEq, Repr

/-- The request a manager method hands to the HTTP layer (`this.fetch`): path,
method, query parameters, headers and body. -/
structure Request where
  path : String
  method : HttpMethod := .GET
  params : RawObject := []
  headers : List (String × String) := []
  body : Option ReqBody := none
deriving DecidableEq, Repr

/-- An error produced by the HTTP layer (a rejected `fetch`). -/
structure HttpError where
  status : Nat
  message : String
deriving DecidableEq, Repr

/-- A caught JavaScript error value: either the HTTP layer's error or a plain string
message (`new UnexpectedError('We could not resolve your given uri!')`). -/
inductive JsError where
  | http (e : HttpError)
  | msg (s : String)
deriving DecidableEq, Repr

/-- The library's error kinds from `Error.ts` / `Errors.ts`: a missing-parameter
error and an unexpected error wrapping the caught value. -/
inductive SpotifyError where
  | missingParam (message : String)
  | unexpected (e : JsError)
deriving DecidableEq, Repr

/-- The upstream paging envelope, also the typed paging object the managers return
(`Paging<T>` of `Types.ts`). -/
structure Paging (α : Type) where
  limit : Int
  offset : Int
  total : Int
  items : List α
deriving DecidableEq, Repr

/-- Raw playlist JSON payload as far as the code inspects it: an `id` plus the rest
of the payload, kept opaque. -/
structure RawPlaylist where
  id : String
  payload : String
deriving DecidableEq, Repr

/-- Raw track JSON payload as far as the code inspects it: an `id`, the `uri` the
legacy advanced option feeds to the code-image helper, and the rest of the payload,
kept opaque. -/
structure RawTrack where
  id : String
  uri : String
  payload : String
deriving DecidableEq, Repr

/-- Modelled from the spec: the `Playlist` entity class of `structures/Playlist`,
which is not in the source tree. Per the spec, entities are flat value objects
mirroring the upstream JSON shape, constructed once from a single JSON payload;
we keep the `id` (the only field the managers read) and the payload it was
constructed from. -/
structure Playlist where
  id : String
  payload : String
deriving DecidableEq, Repr

/-- `new Playlist(raw, client)`: construction from a single JSON payload. -/
def Playlist.ofRaw (r : RawPlaylist) : Playlist :=
  { id := r.id, payload := r.payload }

/-- Modelled from the spec: the `PlaylistTrack` parser of `structures/Playlist`
(not in the source tree), a constructor from a single JSON payload. -/
structure PlaylistTrackT where
  raw : RawTrack
deriving DecidableEq, Repr

/-- `PlaylistTrack(raw, client)`. -/
def PlaylistTrack (r : RawTrack) : PlaylistTrackT :=
  ⟨r⟩

/-- Modelled from the spec: the `Image` shape of `Types.ts` (not in the source
tree), a flat value object mirroring the upstream JSON image shape. -/
structure Image where
  url : String
  height : Int
  width : Int
deriving DecidableEq, Repr

/-- A JS `Map` keyed by strings, as an insertion-ordered association list. -/
abbrev CacheMap (α : Type) := List (String × α)

/-- `Map.prototype.set`: replaces the value of an existing key in place, otherwise
appends the entry. -/
def cacheSet {α : Type} (m : CacheMap α) (k : String) (v : α) : CacheMap α :=
  if m.any (fun p => p.1 == k) then
    m.map (fun p => if p.1 == k then (k, v) else p)
  else
    m ++ [(k, v)]

/-- `Map.prototype.get`: the value under the key, when present. -/
def cacheGet {α : Type} (m : CacheMap α) (k : String) : Option α :=
  (m.find? (fun p => p.1 == k)).map (fun p => p.2)

/-- Modelled from the spec: the shared error handler `handleError` of `../Errors`,
which is not in the source tree. Per the spec it "converts thrown/rejected errors
from the HTTP layer into a small set of error kinds (missing parameter, unexpected
upstream error) and either resolves with a default empty/null value or propagates
the error to the caller, depending on call site". We model it abstractly as a
function which, for a caught HTTP error, either yields no value (`.ok ()`, the JS
`null`, so that `handleError(e) || d` evaluates to the call site's default `d`), or
throws (`.error`), propagating a library error to the caller. -/
def HandleError : Type := HttpError → Except SpotifyError Unit

/-- The part of the client state a `PlaylistManager` method can observe and update:
the `cacheOptions.cachePlaylists` flag and the `cache.playlists` map. -/
structure PMCtx where
  cachePlaylists : Bool
  playlists : CacheMap Playlist
deriving DecidableEq, Repr

instance {ε α : Type} [DecidableEq ε] [DecidableEq α] : DecidableEq (Except ε α) :=
  fun x y =>
    match x, y with
    | .ok a, .ok b =>
        if h : a = b then .isTrue (by rw [h]) else .isFalse (by simp [h])
    | .error a, .error b =>
        if h : a = b then .isTrue (by rw [h]) else .isFalse (by simp [h])
    | .ok _, .error _ => .isFalse (by simp)
    | .error _, .ok _ => .isFalse (by simp)

/-- Outcome of one `PlaylistManager` method call: the settled result (resolved value
or propagated error), the playlist cache afterwards, the HTTP requests issued, and
the `Playlist` objects constructed from upstream payloads, in construction order. -/
structure PMOut (α : Type) where
  result : Except SpotifyError α
  cache : CacheMap Playlist
  requests : List Request
  constructed : List Playlist
deriving DecidableEq, Repr

/-- Response shape of `GET /search` with `type=playlist`: a `playlists` paging
envelope of raw playlist payloads. -/
structure SearchPlaylistsResponse where
  playlists : Paging RawPlaylist
deriving DecidableEq, Repr

/-- Response shape of snapshot-returning playlist mutations. -/
structure SnapshotResponse where
  snapshot_id : String
deriving DecidableEq, Repr

namespace PlaylistManager

/-- `PlaylistManager.search` (managers/Playlist.ts, newer version): fetches
`/search` with the caller's options spread under `type: 'playlist', q: query`,
constructs a `Playlist` per item, caches each under its own id when
`cacheOptions.cachePlaylists` is set, and returns the paging object; a rejected
fetch goes through `handleError`, falling back to the empty paging object. -/
def search (hE : HandleError) (ctx : PMCtx) (query : String) (options : RawObject)
    (resp : Except HttpError SearchPlaylistsResponse) : PMOut (Paging Playlist) :=
  let req : Request :=
    { path := "/search",
      params := spread options [("type", .str "playlist"), ("q", .str query)] }
  match resp with
  | .ok res =>
      let data := res.playlists
      let playlists := data.items.map Playlist.ofRaw
      let cache' :=
        if ctx.cachePlaylists then
          playlists.foldl (fun m p => cacheSet m p.id p) ctx.playlists
        else ctx.playlists
      { result := .ok { limit := data.limit, offset := data.offset,
                        total := data.total, items := playlists },
        cache := cache', requests := [req], constructed := playlists }
  | .error e =>
      match hE e with
      | .ok _ =>
          { result := .ok { limit := 0, offset := 0, total := 0, items := [] },
            cache := ctx.playlists, requests := [req], constructed := [] }
      | .error err =>
          { result := .error err, cache := ctx.playlists,
            requests := [req], constructed := [] }

/-- `PlaylistManager.get` (newer version): consults the cache unless `force`,
otherwise fetches `/playlists/{id}`, constructs the `Playlist`, caches it under its
own id when caching is on, and returns it; a rejected fetch resolves with
`handleError`'s own result (`null`). -/
def get (hE : HandleError) (ctx : PMCtx) (id : String) (force : Bool)
    (market : String) (resp : Except HttpError RawPlaylist) :
    PMOut (Option Playlist) :=
  let fetched : PMOut (Option Playlist) :=
    let req : Request :=
      { path := "/playlists/" ++ id, params := [("market", .str market)] }
    match resp with
    | .ok raw =>
        let playlist := Playlist.ofRaw raw
        let cache' :=
          if ctx.cachePlaylists then cacheSet ctx.playlists playlist.id playlist
          else ctx.playlists
        { result := .ok (some playlist), cache := cache',
          requests := [req], constructed := [playlist] }
    | .error e =>
        match hE e with
        | .ok _ =>
            { result := .ok none, cache := ctx.playlists,
              requests := [req], constructed := [] }
        | .error err =>
            { result := .error err, cache := ctx.playlists,
              requests := [req], constructed := [] }
  if !force then
    match cacheGet ctx.playlists id with
    | some existing =>
        { result := .ok (some existing), cache := ctx.playlists,
          requests := [], constructed := [] }
    | none => fetched
  else fetched

/-- `PlaylistManager.getTracks` (newer version): fetches `/playlists/{id}/tracks`
and returns the paging object of parsed playlist tracks; a rejected fetch goes
through `handleError`, falling back to the empty paging object. The cache is not
touched. -/
def getTracks (hE : HandleError) (ctx : PMCtx) (id : String) (options : RawObject)
    (resp : Except HttpError (Paging RawTrack)) : PMOut (Paging PlaylistTrackT) :=
  let req : Request := { path := "/playlists/" ++ id ++ "/tracks", params := options }
  match resp with
  | .ok data =>
      let tracks := data.items.map PlaylistTrack
      { result := .ok { limit := data.limit, offset := data.offset,
                        total := data.total, items := tracks },
        cache := ctx.playlists, requests := [req], constructed := [] }
  | .error e =>
      match hE e with
      | .ok _ =>
          { result := .ok { limit := 0, offset := 0, total := 0, items := [] },
            cache := ctx.playlists, requests := [req], constructed := [] }
      | .error err =>
          { result := .error err, cache := ctx.playlists,
            requests := [req], constructed := [] }

/-- `PlaylistManager.getImages`: fetches `/playlists/{id}/images`; a rejected fetch
goes through `handleError`, falling back to the empty array. -/
def getImages (hE : HandleError) (ctx : PMCtx) (id : String)
    (resp : Except HttpError (List Image)) : PMOut (List Image) :=
  let req : Request := { path := "/playlists/" ++ id ++ "/images" }
  match resp with
  | .ok imgs =>
      { result := .ok imgs, cache := ctx.playlists,
        requests := [req], constructed := [] }
  | .error e =>
      match hE e with
      | .ok _ =>
          { result := .ok [], cache := ctx.playlists,
            requests := [req], constructed := [] }
      | .error err =>
          { result := .error err, cache := ctx.playlists,
            requests := [req], constructed := [] }

/-- `PlaylistManager.userFollows`: fetches
`/playlists/{playlistID}/followers/contains` with the ids joined by commas; a
rejected fetch goes through `handleError`, falling back to the empty array. -/
def userFollows (hE : HandleError) (ctx : PMCtx) (playlistID : String)
    (ids : List String) (resp : Except HttpError (List Bool)) : PMOut (List Bool) :=
  let req : Request :=
    { path := "/playlists/" ++ playlistID ++ "/followers/contains",
      params := [("ids", .str (String.intercalate "," ids))] }
  match resp with
  | .ok bs =>
      { result := .ok bs, cache := ctx.playlists,
        requests := [req], constructed := [] }
  | .error e =>
      match hE e with
      | .ok _ =>
          { result := .ok [], cache := ctx.playlists,
            requests := [req], constructed := [] }
      | .error err =>
          { result := .error err, cache := ctx.playlists,
            requests := [req], constructed := [] }

/-- `PlaylistManager.addItems`: POSTs `/playlists/{id}/tracks` with the options
spread under `uris: items.join(',')` and returns the response's `snapshot_id`; a
rejected fetch goes through `handleError`, falling back to `null`. -/
def addItems (hE : HandleError) (ctx : PMCtx) (id : String) (items : List String)
    (options : RawObject) (resp : Except HttpError SnapshotResponse) :
    PMOut (Option String) :=
  let req : Request :=
    { path := "/playlists/" ++ id ++ "/tracks", method := .POST,
      params := spread options [("uris", .str (String.intercalate "," items))] }
  match resp with
  | .ok res =>
      { result := .ok (some res.snapshot_id), cache := ctx.playlists,
        requests := [req], constructed := [] }
  | .error e =>
      match hE e with
      | .ok _ =>
          { result := .ok none, cache := ctx.playlists,
            requests := [req], constructed := [] }
      | .error err =>
          { result := .error err, cache := ctx.playlists,
            requests := [req], constructed := [] }

end PlaylistManager

/-- `ReorderOptions` of managers/Playlist.ts. -/
structure ReorderOptions where
  rangeStart : Option Int := none
  insertBefore : Option Int := none
  rangeLength : Option Int := none
  snapshotID : Option String := none
deriving DecidableEq, Repr

/-- The `opts` object literal of `reorderItems` before falsy-key deletion:
`{range_start, insert_before, range_length, snapshot_id}` in insertion order, with
missing optional fields carrying `undefined`. -/
def reorderOptsRaw (o : ReorderOptions) : RawObject :=
  [("range_start", optNum o.rangeStart),
   ("insert_before", optNum o.insertBefore),
   ("range_length", optNum o.rangeLength),
   ("snapshot_id", optStr o.snapshotID)]

/-- `Object.keys(opts).forEach(x => !opts[x] ? delete opts[x] : null)`: delete every
key whose value is falsy, keeping the remaining keys in order. -/
def deleteFalsy (o : RawObject) : RawObject :=
  o.filter (fun kv => kv.2.truthy)

namespace PlaylistManager

/-- `PlaylistManager.reorderItems`: builds the snake_case options object, deletes
its falsy keys, and PUTs `/playlists/{id}/tracks` with body `{...opts, uris: items}`,
returning the response's `snapshot_id`; a rejected fetch goes through `handleError`,
falling back to `null`. -/
def reorderItems (hE : HandleError) (ctx : PMCtx) (id : String)
    (items : List String) (options : ReorderOptions)
    (resp : Except HttpError SnapshotResponse) : PMOut (Option String) :=
  let opts := deleteFalsy (reorderOptsRaw options)
  let req : Request :=
    { path := "/playlists/" ++ id ++ "/tracks", method := .PUT,
      headers := [("Content-Type", "application/json")],
      body := some (.obj (spread opts [("uris", .strList items)])) }
  match resp with
  | .ok res =>
      { result := .ok (some res.snapshot_id), cache := ctx.playlists,
        requests := [req], constructed := [] }
  | .error e =>
      match hE e with
      | .ok _ =>
          { result := .ok none, cache := ctx.playlists,
            requests := [req], constructed := [] }
      | .error err =>
          { result := .error err, cache := ctx.playlists,
            requests := [req], constructed := [] }

/-- `PlaylistManager.removeItems`: builds `{snapshot_id}` from the optional
snapshot id, deletes its falsy keys, and DELETEs `/playlists/{id}/tracks` with body
`{...opts, tracks: items}`, returning the response's `snapshot_id`; a rejected
fetch goes through `handleError`, falling back to `null`. -/
def removeItems (hE : HandleError) (ctx : PMCtx) (id : String)
    (items : List String) (snapshotID : Option String)
    (resp : Except HttpError SnapshotResponse) : PMOut (Option String) :=
  let opts := deleteFalsy [("snapshot_id", optStr snapshotID)]
  let req : Request :=
    { path := "/playlists/" ++ id ++ "/tracks", method := .DELETE,
      headers := [("Content-Type", "application/json")],
      body := some (.obj (spread opts [("tracks", .strList items)])) }
  match resp with
  | .ok res =>
      { result := .ok (some res.snapshot_id), cache := ctx.playlists,
        requests := [req], constructed := [] }
  | .error e =>
      match hE e with
      | .ok _ =>
          { result := .ok none, cache := ctx.playlists,
            requests := [req], constructed := [] }
      | .error err =>
          { result := .error err, cache := ctx.playlists,
            requests := [req], constructed := [] }

/-- `PlaylistManager.uploadImage`: PUTs the raw jpeg data to
`/playlists/{id}/images` and resolves `true`; a rejected fetch goes through
`handleError`, falling back to `false`. -/
def uploadImage (hE : HandleError) (ctx : PMCtx) (id : String) (image : String)
    (resp : Except HttpError Unit) : PMOut Bool :=
  let req : Request :=
    { path := "/playlists/" ++ id ++ "/images", method := .PUT,
      headers := [("Content-Type", "image/jpeg")],
      body := some (.raw image) }
  match resp with
  | .ok _ =>
      { result := .ok true, cache := ctx.playlists,
        requests := [req], constructed := [] }
  | .error e =>
      match hE e with
      | .ok _ =>
          { result := .ok false, cache := ctx.playlists,
            requests := [req], constructed := [] }
      | .error err =>
          { result := .error err, cache := ctx.playlists,
            requests := [req], constructed := [] }

end PlaylistManager

/-! ## The older `PlaylistManager` version present in the tree

The tree holds a second, older version of `managers/Playlist.ts` with only `get`,
`getTracks` and `getImages`; its `get` is textually identical to the newer one and
its `getTracks` returns the bare array of parsed tracks instead of a paging
object. -/

namespace PlaylistManagerOld

/-- `PlaylistManager.get` (older version): consults the cache unless `force`,
otherwise fetches `/playlists/{id}`, constructs the `Playlist`, caches it under its
own id when caching is on, and returns it; a rejected fetch resolves with
`handleError`'s own result (`null`). -/
def get (hE : HandleError) (ctx : PMCtx) (id : String) (force : Bool)
    (market : String) (resp : Except HttpError RawPlaylist) :
    PMOut (Option Playlist) :=
  let fetched : PMOut (Option Playlist) :=
    let req : Request :=
      { path := "/playlists/" ++ id, params := [("market", .str market)] }
    match resp with
    | .ok raw =>
        let playlist := Playlist.ofRaw raw
        let cache' :=
          if ctx.cachePlaylists then cacheSet ctx.playlists playlist.id playlist
          else ctx.playlists
        { result := .ok (some playlist), cache := cache',
          requests := [req], constructed := [playlist] }
    | .error e =>
        match hE e with
        | .ok _ =>
            { result := .ok none, cache := ctx.playlists,
              requests := [req], constructed := [] }
        | .error err =>
            { result := .error err, cache := ctx.playlists,
              requests := [req], constructed := [] }
  if !force then
    match cacheGet ctx.playlists id with
    | some existing =>
        { result := .ok (some existing), cache := ctx.playlists,
          requests := [], constructed := [] }
    | none => fetched
  else fetched

/-- `PlaylistManager.getTracks` (older version): fetches `/playlists/{id}/tracks`
and returns the bare array of parsed playlist tracks; a rejected fetch goes through
`handleError`, falling back to the empty array. -/
def getTracks (hE : HandleError) (ctx : PMCtx) (id : String) (options : RawObject)
    (resp : Except HttpError (Paging RawTrack)) : PMOut (List PlaylistTrackT) :=
  let req : Request := { path := "/playlists/" ++ id ++ "/tracks", params := options }
  match resp with
  | .ok data =>
      { result := .ok (data.items.map PlaylistTrack), cache := ctx.playlists,
        requests := [req], constructed := [] }
  | .error e =>
      match hE e with
      | .ok _ =>
          { result := .ok [], cache := ctx.playlists,
            requests := [req], constructed := [] }
      | .error err =>
          { result := .error err, cache := ctx.playlists,
            requests := [req], constructed := [] }

end PlaylistManagerOld

/-! ## Trace semantics of the playlist cache

A run of the client is a sequence of `get`/`search` calls, each carrying the
upstream's answer to its request. The trace state keeps the playlist cache
together with the log of every `Playlist` constructed so far, in construction
order. -/

/-- One client call against the playlist manager with the upstream's response. -/
inductive PMEvent where
  | get (id : String) (force : Bool) (market : String)
      (resp : Except HttpError RawPlaylist)
  | search (query : String) (options : RawObject)
      (resp : Except HttpError SearchPlaylistsResponse)

/-- Trace state: the playlist cache plus the log of constructed `Playlist`
objects, oldest first. -/
structure TraceState where
  cache : CacheMap Playlist
  log : List Playlist

/-- Run one event through the corresponding `PlaylistManager` method. -/
def stepEvent (hE : HandleError) (cp : Bool) (s : TraceState) (ev : PMEvent) :
    TraceState :=
  match ev with
  | .get id force market resp =>
      let out := PlaylistManager.get hE ⟨cp, s.cache⟩ id force market resp
      { cache := out.cache, log := s.log ++ out.constructed }
  | .search q opts resp =>
      let out := PlaylistManager.search hE ⟨cp, s.cache⟩ q opts resp
      { cache := out.cache, log := s.log ++ out.constructed }

/-- Run a trace from a fresh client (empty cache, nothing constructed yet). -/
def runTrace (hE : HandleError) (cp : Bool) (evs : List PMEvent) : TraceState :=
  evs.foldl (stepEvent hE cp) { cache := [], log := [] }

/-- The most recently constructed playlist whose id is `k`. -/
def lastWithId (log : List Playlist) (k : String) : Option Playlist :=
  log.reverse.find? (fun p => p.id == k)

/-! ## The legacy `lib/Artist.ts` class -/

/-- Raw artist JSON payload as far as the code inspects it. -/
structure RawArtist where
  id : String
  uri : String
  payload : String
deriving DecidableEq, Repr

/-- Raw album JSON payload as far as the code inspects it. -/
structure RawAlbum where
  id : String
  uri : String
  payload : String
deriving DecidableEq, Repr

/-- What the code-image helper returns: the scannable image and the dominant
color. -/
structure CodeImageData where
  image : String
  dominantColor : String
deriving DecidableEq, Repr

/-- Modelled from the spec: `Spotify.getCodeImage` lives in `Spotify.ts`, which is
not in the source tree; the legacy classes call it per entity uri when the
`advanced` option is set. We model it as an arbitrary total function from the uri
to the code-image data. -/
def CodeImage : Type := String → CodeImageData

/-- Modelled from the spec: the JavaScript builtin `encodeURIComponent`. Its exact
percent-encoding is outside the repository and irrelevant to every claim, so it is
embedded as the identity on the query string. -/
def encodeURIComponent (s : String) : String := s

/-- Modelled from the spec: the `Artist` entity class of `structures/Artist` (not
in the source tree): a flat value object constructed from a single JSON payload.
`codeImage` and `dominantColor` start absent; the legacy `advanced` option assigns
them after construction. -/
structure ArtistStructure where
  id : String
  uri : String
  payload : String
  codeImage : Option String := none
  dominantColor : Option String := none
deriving DecidableEq, Repr

/-- `new ArtistStructure(raw)`. -/
def ArtistStructure.ofRaw (r : RawArtist) : ArtistStructure :=
  { id := r.id, uri := r.uri, payload := r.payload }

/-- The two field assignments `x.codeImage = d.image; x.dominantColor =
d.dominantColor` of the advanced loop, as a functional update. -/
def ArtistStructure.withCode (a : ArtistStructure) (d : CodeImageData) :
    ArtistStructure :=
  { a with codeImage := some d.image, dominantColor := some d.dominantColor }

/-- Modelled from the spec: the `Track` entity class of `structures/Track` (not in
the source tree), shaped like `ArtistStructure`. -/
structure Track where
  id : String
  uri : String
  payload : String
  codeImage : Option String := none
  dominantColor : Option String := none
deriving DecidableEq, Repr

/-- `new Track(raw)`. -/
def Track.ofRaw (r : RawTrack) : Track :=
  { id := r.id, uri := r.uri, payload := r.payload }

/-- The advanced-loop field assignments on a `Track`. -/
def Track.withCode (t : Track) (d : CodeImageData) : Track :=
  { t with codeImage := some d.image, dominantColor := some d.dominantColor }

/-- Modelled from the spec: the `SimplifiedAlbum` entity class of
`structures/SimplifiedAlbum` (not in the source tree), shaped like
`ArtistStructure`. -/
structure SimplifiedAlbum where
  id : String
  uri : String
  payload : String
  codeImage : Option String := none
  dominantColor : Option String := none
deriving DecidableEq, Repr

/-- `new SimplifiedAlbum(raw)`. -/
def SimplifiedAlbum.ofRaw (r : RawAlbum) : SimplifiedAlbum :=
  { id := r.id, uri := r.uri, payload := r.payload }

/-- The advanced-loop field assignments on a `SimplifiedAlbum`. -/
def SimplifiedAlbum.withCode (a : SimplifiedAlbum) (d : CodeImageData) :
    SimplifiedAlbum :=
  { a with codeImage := some d.image, dominantColor := some d.dominantColor }

/-- Options object of the legacy `Artist.search` / `Artist.getAlbums`: an optional
`limit`, the `advanced` flag, and extra raw params spread last into the query. -/
structure LegacyOptions where
  limit : Option Int := none
  advanced : Bool := false
  params : RawObject := []
deriving Repr

/-- Outcome of one legacy `Artist` method call: the promise's first settlement and
the HTTP requests issued. The legacy executors call `reject` without returning, so
the fetch still happens even on a missing parameter; the promise settles with the
first settlement (`reject` on the empty argument wins over anything later). -/
structure AOut (α : Type) where
  result : Except SpotifyError α
  requests : List Request
deriving DecidableEq, Repr

/-- Response shape of the legacy `v1/search` with `type=artist`: an `artists`
paging envelope of raw artist payloads. -/
structure ArtistsSearchResponse where
  artists : Paging RawArtist
deriving DecidableEq, Repr

/-- Response shape of `v1/artists/{id}/albums`: a paging envelope of raw albums. -/
structure AlbumsResponse where
  items : List RawAlbum
deriving DecidableEq, Repr

/-- Response shape of `v1/artists/{id}/top-tracks`. -/
structure TopTracksResponse where
  tracks : List RawTrack
deriving DecidableEq, Repr

/-- Response shape of `v1/artists/{id}/related-artists`. -/
structure RelatedArtistsResponse where
  artists : List RawArtist
deriving DecidableEq, Repr

namespace Artist

/-- Legacy `Artist.search`: rejects `MissingParamError` when the query is empty
(the executor still issues its single fetch), fetches `v1/search` with the fixed
query params and the caller's `params` spread last, constructs an
`ArtistStructure` per item, and, under `advanced`, assigns each one its code image
and dominant color after construction; a rejected fetch becomes an
`UnexpectedError` wrapping it. -/
def search (ci : CodeImage) (q : String) (options : LegacyOptions)
    (resp : Except HttpError ArtistsSearchResponse) :
    AOut (List ArtistStructure) :=
  let req : Request :=
    { path := "v1/search",
      params := spread
        [("q", .str (encodeURIComponent q)), ("type", .str "artist"),
         ("market", .str "US"), ("limit", optNum options.limit)]
        options.params }
  let settled : Except SpotifyError (List ArtistStructure) :=
    match resp with
    | .ok res =>
        let items := res.artists.items.map ArtistStructure.ofRaw
        .ok (if options.advanced then
               items.map (fun a => a.withCode (ci a.uri))
             else items)
    | .error e => .error (.unexpected (.http e))
  { result := if q == "" then .error (.missingParam "missing query") else settled,
    requests := [req] }

/-- Legacy `Artist.get`: rejects `MissingParamError` when the id is empty (the
executor still issues its single fetch), fetches `v1/artists/{id}`, constructs the
`ArtistStructure`, and under `advanced` assigns its code image and dominant color
after construction; a rejected fetch becomes an `UnexpectedError` wrapping it. -/
def get (ci : CodeImage) (id : String) (advanced : Bool)
    (resp : Except HttpError RawArtist) : AOut ArtistStructure :=
  let req : Request := { path := "v1/artists/" ++ id }
  let settled : Except SpotifyError ArtistStructure :=
    match resp with
    | .ok raw =>
        let data := ArtistStructure.ofRaw raw
        .ok (if advanced then data.withCode (ci data.uri) else data)
    | .error e => .error (.unexpected (.http e))
  { result := if id == "" then .error (.missingParam "missing id") else settled,
    requests := [req] }

/-- Legacy `Artist.getAlbums`: like `search` but on `v1/artists/{id}/albums` with
the fixed `market`/`include_groups` params, constructing `SimplifiedAlbum`s. -/
def getAlbums (ci : CodeImage) (id : String) (options : LegacyOptions)
    (resp : Except HttpError AlbumsResponse) : AOut (List SimplifiedAlbum) :=
  let req : Request :=
    { path := "v1/artists/" ++ id ++ "/albums",
      params := spread
        [("limit", optNum options.limit), ("market", .str "US"),
         ("include_groups", .str "single")]
        options.params }
  let settled : Except SpotifyError (List SimplifiedAlbum) :=
    match resp with
    | .ok res =>
        let items := res.items.map SimplifiedAlbum.ofRaw
        .ok (if options.advanced then
               items.map (fun a => a.withCode (ci a.uri))
             else items)
    | .error e => .error (.unexpected (.http e))
  { result := if id == "" then .error (.missingParam "missing id") else settled,
    requests := [req] }

/-- Legacy `Artist.topTracks`: like `search` but on `v1/artists/{id}/top-tracks`
with the fixed `country` param, constructing `Track`s. -/
def topTracks (ci : CodeImage) (id : String) (options : LegacyOptions)
    (resp : Except HttpError TopTracksResponse) : AOut (List Track) :=
  let req : Request :=
    { path := "v1/artists/" ++ id ++ "/top-tracks",
      params := spread [("country", .str "US")] options.params }
  let settled : Except SpotifyError (List Track) :=
    match resp with
    | .ok res =>
        let items := res.tracks.map Track.ofRaw
        .ok (if options.advanced then
               items.map (fun t => t.withCode (ci t.uri))
             else items)
    | .error e => .error (.unexpected (.http e))
  { result := if id == "" then .error (.missingParam "missing id") else settled,
    requests := [req] }

/-- Legacy `Artist.relatedArtists`: fetches `v1/artists/{id}/related-artists` with
only the fixed `country` param (no caller spread), constructing
`ArtistStructure`s. -/
def relatedArtists (ci : CodeImage) (id : String) (options : LegacyOptions)
    (resp : Except HttpError RelatedArtistsResponse) :
    AOut (List ArtistStructure) :=
  let req : Request :=
    { path := "v1/artists/" ++ id ++ "/related-artists",
      params := [("country", .str "US")] }
  let settled : Except SpotifyError (List ArtistStructure) :=
    match resp with
    | .ok res =>
        let items := res.artists.map ArtistStructure.ofRaw
        .ok (if options.advanced then
               items.map (fun a => a.withCode (ci a.uri))
             else items)
    | .error e => .error (.unexpected (.http e))
  { result := if id == "" then .error (.missingParam "missing id") else settled,
    requests := [req] }

end Artist

/-! ## The legacy `dist/Client.js` client -/

/-- `String.prototype.split` restricted to the one-character separator the code
uses, structural over the character list (JavaScript semantics: `"".split(':')`
is `[""]`, separators at the ends produce empty segments). The recursion never
returns the empty list, so the inner `[]` branch is dead. -/
def splitChars (sep : Char) : List Char → List String
  | [] => [""]
  | c :: cs =>
      if c = sep then "" :: splitChars sep cs
      else
        match splitChars sep cs with
        | [] => [String.mk [c]]
        | s :: rest => String.mk (c :: s.data) :: rest

/-- `uri.split(sep)` on a string. -/
def jsSplit (s : String) (sep : Char) : List String :=
  splitChars sep s.data

/-- The part of the legacy client state relevant to the claims: the token and the
one cache map its constructor creates (`this.cache = { tracks: new
CacheManager('id') }`). The manager fields only close over the token, so they are
represented by it. -/
structure ClientState where
  token : String
  cacheTracks : CacheMap Track
deriving DecidableEq, Repr

/-- The legacy `Client` constructor: `this.token = oauth || 'NO TOKEN'` and a fresh
empty tracks cache. -/
def Client.init (oauth : Option String) : ClientState :=
  { token := match oauth with
      | some t => if t == "" then "NO TOKEN" else t
      | none => "NO TOKEN",
    cacheTracks := [] }

/-- Legacy `Client.login`: throws `MissingParamError` on a falsy token, otherwise
reassigns the token and rebuilds every manager field; it never assigns
`this.cache`, so the cache map is carried over unchanged. -/
def Client.login (s : ClientState) (token : String) :
    Except SpotifyError ClientState :=
  if token == "" then .error (.missingParam "missing token")
  else .ok { s with token := token }

/-- The manager a `Client.getByURI` call dispatches to. -/
inductive ManagerKind where
  | albums
  | artists
  | episodes
  | shows
deriving DecidableEq, Repr

/-- Legacy `Client.getByURI`, up to the dispatch: splits the uri on `:`, switches
on the second segment, and resolves via the matching manager's `get` with the
third segment as id — except that the `track` and `user` cases call
`this.shows.get`; any other second segment (or its absence) rejects with
`UnexpectedError('We could not resolve your given uri!')`. -/
def Client.getByURIDispatch (uri : String) :
    Except SpotifyError (ManagerKind × Option String) :=
  let split := jsSplit uri ':'
  let id := split.get? 2
  match split.get? 1 with
  | some "album" => .ok (.albums, id)
  | some "artist" => .ok (.artists, id)
  | some "episode" => .ok (.episodes, id)
  | some "show" => .ok (.shows, id)
  | some "track" => .ok (.shows, id)
  | some "user" => .ok (.shows, id)
  | _ => .error (.unexpected (.msg "We could not resolve your given uri!"))

/-- Dropping the advanced-option fields of an `ArtistStructure`, for stating that
the advanced option touches nothing else. -/
def ArtistStructure.stripCode (a : ArtistStructure) : ArtistStructure :=
  { a with codeImage := none, dominantColor := none }

/-! ## Theorems -/

/-- C5: `PlaylistManager.search` always issues `/search` with the caller's options
extended by `type: 'playlist'` and `q`, and on success returns the envelope's
limit/offset/total with the parsed playlists in upstream order. -/
theorem C5_search_request_and_result (hE : HandleError) (ctx : PMCtx) (q : String)
    (opts : RawObject) (resp : Except HttpError SearchPlaylistsResponse)
    (d : SearchPlaylistsResponse) :
    (PlaylistManager.search hE ctx q opts resp).requests =
      [{ path := "/search",
         params := spread opts [("type", .str "playlist"), ("q", .str q)] }] ∧
    (PlaylistManager.search hE ctx q opts (.ok d)).result =
      .ok { limit := d.playlists.limit, offset := d.playlists.offset,
            total := d.playlists.total,
            items := d.playlists.items.map Playlist.ofRaw } := by
  refine ⟨?_, rfl⟩
  cases resp with
  | ok r => rfl
  | error e =>
      cases h : hE e with
      | ok u => simp [PlaylistManager.search, h]
      | error err => simp [PlaylistManager.search, h]

/-- C9: in `reorderItems` and `removeItems` every falsy option field is deleted
from the body object before the request is sent; in particular a field set to `0`
(resp. the empty snapshot id) yields exactly the same request as omitting it. -/
theorem C9_falsy_fields_deleted (hE : HandleError) (ctx : PMCtx) (id : String)
    (items : List String) (o : ReorderOptions)
    (resp : Except HttpError SnapshotResponse) :
    (PlaylistManager.reorderItems hE ctx id items o resp).requests =
      [{ path := "/playlists/" ++ id ++ "/tracks", method := .PUT,
         headers := [("Content-Type", "application/json")],
         body := some (.obj (spread (deleteFalsy (reorderOptsRaw o))
                               [("uris", .strList items)])) }] ∧
    PlaylistManager.reorderItems hE ctx id items { o with rangeStart := some 0 } resp =
      PlaylistManager.reorderItems hE ctx id items { o with rangeStart := none } resp ∧
    PlaylistManager.reorderItems hE ctx id items { o with insertBefore := some 0 } resp =
      PlaylistManager.reorderItems hE ctx id items { o with insertBefore := none } resp ∧
    PlaylistManager.reorderItems hE ctx id items { o with rangeLength := some 0 } resp =
      PlaylistManager.reorderItems hE ctx id items { o with rangeLength := none } resp ∧
    PlaylistManager.removeItems hE ctx id items (some "") resp =
      PlaylistManager.removeItems hE ctx id items none resp := by
  have h1 : deleteFalsy (reorderOptsRaw { o with rangeStart := some 0 }) =
      deleteFalsy (reorderOptsRaw { o with rangeStart := none }) := by
    simp [reorderOptsRaw, deleteFalsy, List.filter_cons, optNum, JVal.truthy]
  have h2 : deleteFalsy (reorderOptsRaw { o with insertBefore := some 0 }) =
      deleteFalsy (reorderOptsRaw { o with insertBefore := none }) := by
    simp [reorderOptsRaw, deleteFalsy, List.filter_cons, optNum, JVal.truthy]
  have h3 : deleteFalsy (reorderOptsRaw { o with rangeLength := some 0 }) =
      deleteFalsy (reorderOptsRaw { o with rangeLength := none }) := by
    simp [reorderOptsRaw, deleteFalsy, List.filter_cons, optNum, JVal.truthy]
  have h4 : deleteFalsy [("snapshot_id", optStr (some ""))] =
      deleteFalsy [("snapshot_id", optStr none)] := by
    simp [deleteFalsy, List.filter_cons, optStr, JVal.truthy]
  refine ⟨?_, ?_, ?_, ?_, ?_⟩
  · cases resp with
    | ok r => rfl
    | error e =>
        cases h : hE e with
        | ok u => simp [PlaylistManager.reorderItems, h]
        | error err => simp [PlaylistManager.reorderItems, h]
  · simp only [PlaylistManager.reorderItems, h1]
  · simp only [PlaylistManager.reorderItems, h2]
  · simp only [PlaylistManager.reorderItems, h3]
  · simp only [PlaylistManager.removeItems, h4]

/-- C10: the two `PlaylistManager` versions agree on their shared surface: `get`
is behaviorally identical (result, cache effect, requests and constructions), and
the older `getTracks` returns exactly the `items` field of the paging object the
newer `getTracks` returns, issuing the same request. -/
theorem C10_old_new_agreement (hE : HandleError) (ctx : PMCtx) (id : String)
    (force : Bool) (market : String) (resp : Except HttpError RawPlaylist)
    (opts : RawObject) (respT : Except HttpError (Paging RawTrack)) :
    PlaylistManagerOld.get hE ctx id force market resp =
      PlaylistManager.get hE ctx id force market resp ∧
    (PlaylistManagerOld.getTracks hE ctx id opts respT).result =
      Except.map Paging.items (PlaylistManager.getTracks hE ctx id opts respT).result ∧
    (PlaylistManagerOld.getTracks hE ctx id opts respT).requests =
      (PlaylistManager.getTracks hE ctx id opts respT).requests := by
  refine ⟨rfl, ?_, ?_⟩ <;>
    cases respT with
    | ok d => rfl
    | error e =>
        cases h : hE e with
        | ok u =>
            simp [PlaylistManagerOld.getTracks, PlaylistManager.getTracks, h,
              Except.map]
        | error err =>
            simp [PlaylistManagerOld.getTracks, PlaylistManager.getTracks, h,
              Except.map]

/-- C8: `Client.getByURI` sends `spotify:track:<id>` and `spotify:user:<id>` to
`shows.get`, dispatches album/artist/episode/show uris to their matching
managers, and rejects any other uri kind with an `UnexpectedError`. -/
theorem C8_getByURI_dispatch (uri kind id : String) :
    (jsSplit uri ':' = ["spotify", "track", id] →
        Client.getByURIDispatch uri = .ok (.shows, some id)) ∧
    (jsSplit uri ':' = ["spotify", "user", id] →
        Client.getByURIDispatch uri = .ok (.shows, some id)) ∧
    (jsSplit uri ':' = ["spotify", "album", id] →
        Client.getByURIDispatch uri = .ok (.albums, some id)) ∧
    (jsSplit uri ':' = ["spotify", "artist", id] →
        Client.getByURIDispatch uri = .ok (.artists, some id)) ∧
    (jsSplit uri ':' = ["spotify", "episode", id] →
        Client.getByURIDispatch uri = .ok (.episodes, some id)) ∧
    (jsSplit uri ':' = ["spotify", "show", id] →
        Client.getByURIDispatch uri = .ok (.shows, some id)) ∧
    (jsSplit uri ':' = ["spotify", kind, id] →
      kind ≠ "album" → kind ≠ "artist" → kind ≠ "episode" → kind ≠ "show" →
      kind ≠ "track" → kind ≠ "user" →
        Client.getByURIDispatch uri =
          .error (.unexpected (.msg "We could not resolve your given uri!"))) := by
  refine ⟨?_, ?_, ?_, ?_, ?_, ?_, ?_⟩
  · intro h; simp [Client.getByURIDispatch, h]
  · intro h; simp [Client.getByURIDispatch, h]
  · intro h; simp [Client.getByURIDispatch, h]
  · intro h; simp [Client.getByURIDispatch, h]
  · intro h; simp [Client.getByURIDispatch, h]
  · intro h; simp [Client.getByURIDispatch, h]
  · intro h h1 h2 h3 h4 h5 h6
    simp only [Client.getByURIDispatch, h]
    split <;> simp_all

/-- Witness for C8 at concrete uris. -/
theorem C8_getByURI_dispatch_witness :
    Client.getByURIDispatch "spotify:track:t1" = .ok (.shows, some "t1") ∧
    Client.getByURIDispatch "spotify:user:u1" = .ok (.shows, some "u1") ∧
    Client.getByURIDispatch "spotify:playlist:p1" =
      .error (.unexpected (.msg "We could not resolve your given uri!")) := by
  refine ⟨?_, ?_, ?_⟩
  · exact (C8_getByURI_dispatch "spotify:track:t1" "x" "t1").1 (by decide)
  · exact (C8_getByURI_dispatch "spotify:user:u1" "x" "u1").2.1 (by decide)
  · exact (C8_getByURI_dispatch "spotify:playlist:p1" "playlist" "p1").2.2.2.2.2.2
      (by decide) (by decide) (by decide) (by decide) (by decide) (by decide)
      (by decide)

/-- C1: whenever the underlying fetch of a `PlaylistManager` method rejects, the
error goes through `handleError`, and when the handler yields no value the method
resolves with the call-site default: the empty paging object for `search` and
`getTracks`, the empty array for `getImages` and `userFollows`, `false` for
`uploadImage`, `null` for `addItems`, `reorderItems` and `removeItems`, and the
handler's own result (`null`) for `get`. -/
theorem C1_handler_defaults (hE : HandleError) (ctx : PMCtx) (e : HttpError)
    (q id market image : String) (opts popts : RawObject)
    (items ids : List String) (ro : ReorderOptions) (sid : Option String)
    (force : Bool)
    (hok : hE e = .ok ())
    (hfetch : force = true ∨ cacheGet ctx.playlists id = none) :
    (PlaylistManager.search hE ctx q opts (.error e)).result =
      .ok { limit := 0, offset := 0, total := 0, items := [] } ∧
    (PlaylistManager.getTracks hE ctx id opts (.error e)).result =
      .ok { limit := 0, offset := 0, total := 0, items := [] } ∧
    (PlaylistManager.getImages hE ctx id (.error e)).result = .ok [] ∧
    (PlaylistManager.userFollows hE ctx id ids (.error e)).result = .ok [] ∧
    (PlaylistManager.uploadImage hE ctx id image (.error e)).result = .ok false ∧
    (PlaylistManager.addItems hE ctx id items popts (.error e)).result = .ok none ∧
    (PlaylistManager.reorderItems hE ctx id items ro (.error e)).result = .ok none ∧
    (PlaylistManager.removeItems hE ctx id items sid (.error e)).result = .ok none ∧
    (PlaylistManager.get hE ctx id force market (.error e)).result = .ok none := by
  refine ⟨?_, ?_, ?_, ?_, ?_, ?_, ?_, ?_, ?_⟩
  · simp [PlaylistManager.search, hok]
  · simp [PlaylistManager.getTracks, hok]
  · simp [PlaylistManager.getImages, hok]
  · simp [PlaylistManager.userFollows, hok]
  · simp [PlaylistManager.uploadImage, hok]
  · simp [PlaylistManager.addItems, hok]
  · simp [PlaylistManager.reorderItems, hok]
  · simp [PlaylistManager.removeItems, hok]
  · rcases hfetch with hf | hc
    · subst hf; simp [PlaylistManager.get, hok]
    · cases force <;> simp [PlaylistManager.get, hok, hc]

/-- Witness for C1: a concrete rejected `get` with a handler yielding no value
resolves with `null`. -/
theorem C1_handler_defaults_witness :
    (PlaylistManager.get (fun _ => .ok ()) ⟨true, []⟩ "p" true "US"
        (.error ⟨500, "boom"⟩)).result = .ok none :=
  (C1_handler_defaults (fun _ => .ok ()) ⟨true, []⟩ ⟨500, "boom"⟩ "q" "p" "US"
      "img" [] [] [] [] {} none true rfl (Or.inl rfl)).2.2.2.2.2.2.2.2

/-- C4: a legacy `Artist` method (`search`, `get`, `getAlbums`, `topTracks`,
`relatedArtists`) only ever rejects with a `MissingParamError` (when its required
query/id argument is empty) or an `UnexpectedError` wrapping the HTTP layer's
error; no other error value escapes. -/
theorem C4_legacy_artist_error_kinds (ci : CodeImage) (q id : String)
    (o : LegacyOptions) (adv : Bool)
    (r1 : Except HttpError ArtistsSearchResponse)
    (r2 : Except HttpError RawArtist)
    (r3 : Except HttpError AlbumsResponse)
    (r4 : Except HttpError TopTracksResponse)
    (r5 : Except HttpError RelatedArtistsResponse) :
    (∀ err, (Artist.search ci q o r1).result = .error err →
        (q = "" ∧ err = .missingParam "missing query") ∨
          ∃ he, err = .unexpected (.http he)) ∧
    (∀ err, (Artist.get ci id adv r2).result = .error err →
        (id = "" ∧ err = .missingParam "missing id") ∨
          ∃ he, err = .unexpected (.http he)) ∧
    (∀ err, (Artist.getAlbums ci id o r3).result = .error err →
        (id = "" ∧ err = .missingParam "missing id") ∨
          ∃ he, err = .unexpected (.http he)) ∧
    (∀ err, (Artist.topTracks ci id o r4).result = .error err →
        (id = "" ∧ err = .missingParam "missing id") ∨
          ∃ he, err = .unexpected (.http he)) ∧
    (∀ err, (Artist.relatedArtists ci id o r5).result = .error err →
        (id = "" ∧ err = .missingParam "missing id") ∨
          ∃ he, err = .unexpected (.http he)) := by
  refine ⟨?_, ?_, ?_, ?_, ?_⟩ <;> intro err h
  · simp only [Artist.search] at h
    by_cases hq : q = ""
    · rw [if_pos (by simp [hq])] at h
      injection h with h'
      exact .inl ⟨hq, h'.symm⟩
    · rw [if_neg (by simp [hq])] at h
      cases r1 with
      | ok res => exact (Except.noConfusion h : False).elim
      | error e => injection h with h'; exact .inr ⟨e, h'.symm⟩
  · simp only [Artist.get] at h
    by_cases hid : id = ""
    · rw [if_pos (by simp [hid])] at h
      injection h with h'
      exact .inl ⟨hid, h'.symm⟩
    · rw [if_neg (by simp [hid])] at h
      cases r2 with
      | ok res => exact (Except.noConfusion h : False).elim
      | error e => injection h with h'; exact .inr ⟨e, h'.symm⟩
  · simp only [Artist.getAlbums] at h
    by_cases hid : id = ""
    · rw [if_pos (by simp [hid])] at h
      injection h with h'
      exact .inl ⟨hid, h'.symm⟩
    · rw [if_neg (by simp [hid])] at h
      cases r3 with
      | ok res => exact (Except.noConfusion h : False).elim
      | error e => injection h with h'; exact .inr ⟨e, h'.symm⟩
  · simp only [Artist.topTracks] at h
    by_cases hid : id = ""
    · rw [if_pos (by simp [hid])] at h
      injection h with h'
      exact .inl ⟨hid, h'.symm⟩
    · rw [if_neg (by simp [hid])] at h
      cases r4 with
      | ok res => exact (Except.noConfusion h : False).elim
      | error e => injection h with h'; exact .inr ⟨e, h'.symm⟩
  · simp only [Artist.relatedArtists] at h
    by_cases hid : id = ""
    · rw [if_pos (by simp [hid])] at h
      injection h with h'
      exact .inl ⟨hid, h'.symm⟩
    · rw [if_neg (by simp [hid])] at h
      cases r5 with
      | ok res => exact (Except.noConfusion h : False).elim
      | error e => injection h with h'; exact .inr ⟨e, h'.symm⟩

/-- Witness for C4: the empty query makes `Artist.search` reject with exactly
the missing-parameter error. -/
theorem C4_legacy_artist_error_kinds_witness :
    ("" = "" ∧ SpotifyError.missingParam "missing query" =
        .missingParam "missing query") ∨
      ∃ he, SpotifyError.missingParam "missing query" = .unexpected (.http he) :=
  (C4_legacy_artist_error_kinds (fun _ => ⟨"", ""⟩) "" "i" {} false
      (.ok ⟨⟨0, 0, 0, []⟩⟩) (.ok ⟨"a", "u", "p"⟩) (.ok ⟨[]⟩) (.ok ⟨[]⟩)
      (.ok ⟨[]⟩)).1 (.missingParam "missing query") (by rfl)

/-- C3 counterexample: a `PlaylistManager.get` call that is answered from the
cache issues zero HTTP requests, refuting "every manager method invocation …
issues exactly one HTTP request". -/
theorem C3_counterexample :
    (PlaylistManager.get (fun _ => .ok ()) ⟨true, [("p1", ⟨"p1", "d"⟩)]⟩ "p1"
        false "US" (.ok ⟨"p1", "d"⟩)).requests = [] ∧
    ¬ (PlaylistManager.get (fun _ => .ok ()) ⟨true, [("p1", ⟨"p1", "d"⟩)]⟩ "p1"
        false "US" (.ok ⟨"p1", "d"⟩)).requests.length = 1 := by
  exact ⟨rfl, by decide⟩

/-- C3 (amended): every modelled manager method issues at most one HTTP request;
every method except `get` issues exactly one (the legacy methods even when
rejecting a missing parameter), while `get` issues none exactly when `force` is
false and the cache holds the id, and one otherwise. -/
theorem C3_amended_at_most_one_request (hE : HandleError) (ctx : PMCtx)
    (q id market image : String) (opts popts : RawObject)
    (items ids : List String) (ro : ReorderOptions) (sid : Option String)
    (force : Bool) (ci : CodeImage) (o : LegacyOptions) (adv : Bool)
    (rs : Except HttpError SearchPlaylistsResponse)
    (rp : Except HttpError RawPlaylist)
    (rt : Except HttpError (Paging RawTrack))
    (ri : Except HttpError (List Image))
    (rb : Except HttpError (List Bool))
    (rsn rsn2 rsn3 : Except HttpError SnapshotResponse)
    (ru : Except HttpError Unit)
    (r1 : Except HttpError ArtistsSearchResponse)
    (r2 : Except HttpError RawArtist)
    (r3 : Except HttpError AlbumsResponse)
    (r4 : Except HttpError TopTracksResponse)
    (r5 : Except HttpError RelatedArtistsResponse) :
    (PlaylistManager.search hE ctx q opts rs).requests.length = 1 ∧
    (PlaylistManager.getTracks hE ctx id opts rt).requests.length = 1 ∧
    (PlaylistManager.getImages hE ctx id ri).requests.length = 1 ∧
    (PlaylistManager.userFollows hE ctx id ids rb).requests.length = 1 ∧
    (PlaylistManager.addItems hE ctx id items popts rsn).requests.length = 1 ∧
    (PlaylistManager.reorderItems hE ctx id items ro rsn2).requests.length = 1 ∧
    (PlaylistManager.removeItems hE ctx id items sid rsn3).requests.length = 1 ∧
    (PlaylistManager.uploadImage hE ctx id image ru).requests.length = 1 ∧
    (Artist.search ci q o r1).requests.length = 1 ∧
    (Artist.get ci id adv r2).requests.length = 1 ∧
    (Artist.getAlbums ci id o r3).requests.length = 1 ∧
    (Artist.topTracks ci id o r4).requests.length = 1 ∧
    (Artist.relatedArtists ci id o r5).requests.length = 1 ∧
    (PlaylistManager.get hE ctx id force market rp).requests.length ≤ 1 ∧
    ((force = true ∨ cacheGet ctx.playlists id = none) →
        (PlaylistManager.get hE ctx id force market rp).requests.length = 1) ∧
    (force = false → (cacheGet ctx.playlists id).isSome →
        (PlaylistManager.get hE ctx id force market rp).requests = []) := by
  refine ⟨?_, ?_, ?_, ?_, ?_, ?_, ?_, ?_, rfl, rfl, rfl, rfl, rfl, ?_, ?_, ?_⟩
  · cases rs with
    | ok r => rfl
    | error e => cases h : hE e <;> simp [PlaylistManager.search, h]
  · cases rt with
    | ok r => rfl
    | error e => cases h : hE e <;> simp [PlaylistManager.getTracks, h]
  · cases ri with
    | ok r => rfl
    | error e => cases h : hE e <;> simp [PlaylistManager.getImages, h]
  · cases rb with
    | ok r => rfl
    | error e => cases h : hE e <;> simp [PlaylistManager.userFollows, h]
  · cases rsn with
    | ok r => rfl
    | error e => cases h : hE e <;> simp [PlaylistManager.addItems, h]
  · cases rsn2 with
    | ok r => rfl
    | error e => cases h : hE e <;> simp [PlaylistManager.reorderItems, h]
  · cases rsn3 with
    | ok r => rfl
    | error e => cases h : hE e <;> simp [PlaylistManager.removeItems, h]
  · cases ru with
    | ok r => rfl
    | error e => cases h : hE e <;> simp [PlaylistManager.uploadImage, h]
  · cases force with
    | true =>
        cases rp with
        | ok raw => simp [PlaylistManager.get]
        | error e => cases h : hE e <;> simp [PlaylistManager.get, h]
    | false =>
        cases hcg : cacheGet ctx.playlists id with
        | some ex => simp [PlaylistManager.get, hcg]
        | none =>
            cases rp with
            | ok raw => simp [PlaylistManager.get, hcg]
            | error e => cases h : hE e <;> simp [PlaylistManager.get, hcg, h]
  · intro hf
    rcases hf with hf | hc
    · subst hf
      cases rp with
      | ok raw => simp [PlaylistManager.get]
      | error e => cases h : hE e <;> simp [PlaylistManager.get, h]
    · cases force with
      | true =>
          cases rp with
          | ok raw => simp [PlaylistManager.get]
          | error e => cases h : hE e <;> simp [PlaylistManager.get, h]
      | false =>
          cases rp with
          | ok raw => simp [PlaylistManager.get, hc]
          | error e => cases h : hE e <;> simp [PlaylistManager.get, hc, h]
  · intro hf hs
    subst hf
    obtain ⟨ex, hex⟩ := Option.isSome_iff_exists.mp hs
    simp [PlaylistManager.get, hex]

/-- Witness for C3's amended claim: a forced `get` issues exactly one request. -/
theorem C3_amended_witness :
    (PlaylistManager.get (fun _ => .ok ()) ⟨true, []⟩ "p" true "US"
        (.ok ⟨"p", "d"⟩)).requests.length = 1 :=
  (C3_amended_at_most_one_request (fun _ => .ok ()) ⟨true, []⟩ "q" "p" "US"
      "img" [] [] [] [] {} none true (fun _ => ⟨"", ""⟩) {} false
      (.ok ⟨⟨0, 0, 0, []⟩⟩) (.ok ⟨"p", "d"⟩) (.ok ⟨0, 0, 0, []⟩) (.ok [])
      (.ok []) (.ok ⟨"s"⟩) (.ok ⟨"s"⟩) (.ok ⟨"s"⟩) (.ok ())
      (.ok ⟨⟨0, 0, 0, []⟩⟩) (.ok ⟨"a", "u", "p"⟩) (.ok ⟨[]⟩) (.ok ⟨[]⟩)
      (.ok ⟨[]⟩)).2.2.2.2.2.2.2.2.2.2.2.2.2.2.1 (Or.inl rfl)

/-- C6 counterexample: with the `advanced` option the legacy `Artist.search`
resolves with an entity that differs from the object constructed from its JSON
payload — the `codeImage`/`dominantColor` fields were assigned after
construction, refuting "never mutated afterwards by any library method". -/
theorem C6_counterexample :
    (Artist.search (fun _ => ⟨"img", "col"⟩) "q" { advanced := true }
        (.ok ⟨⟨20, 0, 1, [⟨"a1", "u1", "p1"⟩]⟩⟩)).result =
      .ok [{ id := "a1", uri := "u1", payload := "p1",
             codeImage := some "img", dominantColor := some "col" }] ∧
    ({ id := "a1", uri := "u1", payload := "p1", codeImage := some "img",
       dominantColor := some "col" } : ArtistStructure) ≠
      ArtistStructure.ofRaw ⟨"a1", "u1", "p1"⟩ := by
  exact ⟨rfl, by decide⟩

/-- C6 (amended): entities are constructed once from a single JSON payload and
the playlist manager never mutates them (cached entries are replaced wholesale
with the newly constructed object); the one exception is the legacy `advanced`
option, which assigns the `codeImage` and `dominantColor` fields of freshly
constructed entities after construction and touches nothing else. -/
theorem C6_amended_entity_immutability (ci : CodeImage) (hE : HandleError)
    (ctx : PMCtx) (q q2 id market : String) (o : LegacyOptions)
    (opts : RawObject) (d : ArtistsSearchResponse)
    (ds : SearchPlaylistsResponse) (rawp : RawPlaylist) (pls : CacheMap Playlist)
    (hq : q ≠ "") :
    (Artist.search ci q { o with advanced := false } (.ok d)).result =
      .ok (d.artists.items.map ArtistStructure.ofRaw) ∧
    (Artist.search ci q { o with advanced := true } (.ok d)).result =
      .ok (d.artists.items.map (fun r =>
            (ArtistStructure.ofRaw r).withCode (ci r.uri))) ∧
    (∀ r dd, ((ArtistStructure.ofRaw r).withCode dd).stripCode =
        ArtistStructure.ofRaw r) ∧
    (PlaylistManager.search hE ctx q2 opts (.ok ds)).result =
      .ok { limit := ds.playlists.limit, offset := ds.playlists.offset,
            total := ds.playlists.total,
            items := ds.playlists.items.map Playlist.ofRaw } ∧
    (PlaylistManager.get hE ctx id true market (.ok rawp)).result =
      .ok (some (Playlist.ofRaw rawp)) ∧
    (PlaylistManager.get hE ⟨true, pls⟩ id true market (.ok rawp)).cache =
      cacheSet pls (Playlist.ofRaw rawp).id (Playlist.ofRaw rawp) := by
  have hbq : (q == "") = false := by simpa using hq
  refine ⟨?_, ?_, fun r dd => rfl, rfl, ?_, ?_⟩
  · simp [Artist.search, hbq]
  · simp [Artist.search, hbq, ArtistStructure.ofRaw]
  · simp [PlaylistManager.get]
  · simp [PlaylistManager.get]

/-- Witness for C6's amended claim: a concrete non-advanced search resolves with
exactly the constructed entities. -/
theorem C6_amended_witness :
    (Artist.search (fun _ => ⟨"img", "col"⟩) "q" { advanced := false }
        (.ok ⟨⟨20, 0, 1, [⟨"a1", "u1", "p1"⟩]⟩⟩)).result =
      .ok ([⟨"a1", "u1", "p1"⟩] |>.map ArtistStructure.ofRaw) :=
  (C6_amended_entity_immutability (fun _ => ⟨"img", "col"⟩) (fun _ => .ok ())
      ⟨true, []⟩ "q" "q2" "i" "US" {} [] ⟨⟨20, 0, 1, [⟨"a1", "u1", "p1"⟩]⟩⟩
      ⟨⟨0, 0, 0, []⟩⟩ ⟨"p", "d"⟩ [] (by decide)).1

/-- A key present in a cache map stays present after a `Map.set`. -/
theorem cacheSet_keeps_keys {α : Type} (m : CacheMap α) (k k' : String) (v : α)
    (h : (cacheGet m k).isSome) : (cacheGet (cacheSet m k' v) k).isSome := by
  simp only [cacheGet, Option.isSome_map', List.find?_isSome] at h ⊢
  obtain ⟨p, hp, hk⟩ := h
  unfold cacheSet
  by_cases hc : (m.any (fun q => q.1 == k')) = true
  · rw [if_pos hc]
    refine ⟨(fun p => if p.1 == k' then (k', v) else p) p,
      List.mem_map_of_mem _ hp, ?_⟩
    by_cases hpk : (p.1 == k') = true
    · have h1 : p.1 = k' := by simpa using hpk
      have h2 : p.1 = k := by simpa using hk
      simpa [hpk] using h1 ▸ h2
    · simpa [hpk] using hk
  · rw [if_neg hc]
    exact ⟨p, List.mem_append_left _ hp, by simpa using hk⟩

/-- A key present in the playlist cache stays present after the `search` caching
loop. -/
theorem foldl_cacheSet_keeps_keys (ps : List Playlist) (m : CacheMap Playlist)
    (k : String) (h : (cacheGet m k).isSome) :
    (cacheGet (ps.foldl (fun m p => cacheSet m p.id p) m) k).isSome := by
  induction ps generalizing m with
  | nil => simpa using h
  | cons p t ih => exact ih _ (cacheSet_keeps_keys m k p.id p h)

/-- C7: no modelled operation evicts a cache entry: every key present in the
playlist cache before a `search` or `get` call is present afterwards,
`Client.login` carries the tracks cache over unchanged, and the constructor
starts it empty; no size bound exists anywhere. -/
theorem C7_no_eviction (hE : HandleError) (ctx : PMCtx) (q id market : String)
    (opts : RawObject) (force : Bool)
    (rs : Except HttpError SearchPlaylistsResponse)
    (rp : Except HttpError RawPlaylist)
    (s : ClientState) (t : String) (oauth : Option String) (k : String) :
    ((cacheGet ctx.playlists k).isSome →
        (cacheGet (PlaylistManager.search hE ctx q opts rs).cache k).isSome) ∧
    ((cacheGet ctx.playlists k).isSome →
        (cacheGet (PlaylistManager.get hE ctx id force market rp).cache k).isSome) ∧
    (∀ s', Client.login s t = .ok s' → s'.cacheTracks = s.cacheTracks) ∧
    (Client.init oauth).cacheTracks = [] := by
  refine ⟨?_, ?_, ?_, rfl⟩
  · intro h
    cases rs with
    | ok res =>
        cases hcp : ctx.cachePlaylists with
        | true =>
            simpa [PlaylistManager.search, hcp] using
              foldl_cacheSet_keeps_keys _ ctx.playlists k h
        | false => simpa [PlaylistManager.search, hcp] using h
    | error e =>
        cases he : hE e with
        | ok u => simpa [PlaylistManager.search, he] using h
        | error err => simpa [PlaylistManager.search, he] using h
  · intro h
    have hfetched : ∀ hres : Except HttpError RawPlaylist,
        (cacheGet
          ((match hres with
            | .ok raw =>
                let playlist := Playlist.ofRaw raw
                let cache' :=
                  if ctx.cachePlaylists then
                    cacheSet ctx.playlists playlist.id playlist
                  else ctx.playlists
                ({ result := .ok (some playlist), cache := cache',
                   requests := [{ path := "/playlists/" ++ id,
                                  params := [("market", .str market)] }],
                   constructed := [playlist] } : PMOut (Option Playlist))
            | .error e =>
                match hE e with
                | .ok _ =>
                    { result := .ok none, cache := ctx.playlists,
                      requests := [{ path := "/playlists/" ++ id,
                                     params := [("market", .str market)] }],
                      constructed := [] }
                | .error err =>
                    { result := .error err, cache := ctx.playlists,
                      requests := [{ path := "/playlists/" ++ id,
                                     params := [("market", .str market)] }],
                      constructed := [] }).cache) k).isSome := by
      intro hres
      cases hres with
      | ok raw =>
          cases hcp : ctx.cachePlaylists with
          | true => simpa [hcp] using cacheSet_keeps_keys ctx.playlists k _ _ h
          | false => simpa [hcp] using h
      | error e =>
          cases he : hE e with
          | ok u => simpa [he] using h
          | error err => simpa [he] using h
    cases force with
    | true => exact hfetched rp
    | false =>
        cases hcg : cacheGet ctx.playlists id with
        | some ex => simpa [PlaylistManager.get, hcg] using h
        | none =>
            have := hfetched rp
            simpa [PlaylistManager.get, hcg] using this
  · intro s' hl
    unfold Client.login at hl
    by_cases ht : t = ""
    · rw [if_pos (by simpa using ht)] at hl
      exact (Except.noConfusion hl : False).elim
    · rw [if_neg (by simpa using ht)] at hl
      injection hl with h'
      rw [← h']

/-- Witness for C7: a concrete cached key survives a `search` call. -/
theorem C7_no_eviction_witness :
    (cacheGet (PlaylistManager.search (fun _ => .ok ())
        ⟨true, [("k1", ⟨"k1", "d"⟩)]⟩ "q" []
        (.ok ⟨⟨1, 0, 1, [⟨"p2", "e"⟩]⟩⟩)).cache "k1").isSome :=
  (C7_no_eviction (fun _ => .ok ()) ⟨true, [("k1", ⟨"k1", "d"⟩)]⟩ "q" "i" "US"
      [] true (.ok ⟨⟨1, 0, 1, [⟨"p2", "e"⟩]⟩⟩) (.ok ⟨"p2", "e"⟩)
      ⟨"tok", []⟩ "tok2" none "k1").1 (by decide)

/-- Renaming the entries whose key is `k'` to `(k', v)` does not change a lookup
for a different key. -/
theorem find?_map_set_ne {α : Type} (m : CacheMap α) (k' k : String) (v : α)
    (hkk : (k' == k) = false) :
    (m.map (fun p => if p.1 == k' then (k', v) else p)).find?
        (fun p => p.1 == k) = m.find? (fun p => p.1 == k) := by
  induction m with
  | nil => rfl
  | cons a t ih =>
      rw [List.map_cons]
      by_cases ha' : (a.1 == k') = true
      · have ha : (a.1 == k) = false := by
          have h1 : a.1 = k' := by simpa using ha'
          simpa [h1] using hkk
        rw [if_pos ha',
          List.find?_cons_of_neg (p := fun q : String × α => q.1 == k) _ (by simp [hkk]), ih,
          List.find?_cons_of_neg (p := fun q : String × α => q.1 == k) _ (by simp [ha])]
      · rw [if_neg ha']
        by_cases ha : (a.1 == k) = true
        · rw [List.find?_cons_of_pos (p := fun q : String × α => q.1 == k) _ ha,
            List.find?_cons_of_pos (p := fun q : String × α => q.1 == k) _ ha]
        · rw [List.find?_cons_of_neg (p := fun q : String × α => q.1 == k) _ ha, ih,
            List.find?_cons_of_neg (p := fun q : String × α => q.1 == k) _ ha]

/-- Replacing the entries under key `k` by `(k, v)` makes a lookup for `k` return
`(k, v)` exactly when it previously found anything. -/
theorem find?_map_set_eq {α : Type} (m : CacheMap α) (k : String) (v : α) :
    (m.map (fun p => if p.1 == k then (k, v) else p)).find?
        (fun p => p.1 == k) =
      (m.find? (fun p => p.1 == k)).map (fun _ => (k, v)) := by
  induction m with
  | nil => rfl
  | cons a t ih =>
      rw [List.map_cons]
      by_cases ha : (a.1 == k) = true
      · rw [if_pos ha,
          List.find?_cons_of_pos (p := fun q : String × α => q.1 == k) _ (by simp),
          List.find?_cons_of_pos (p := fun q : String × α => q.1 == k) _ ha]
        rfl
      · rw [if_neg ha,
          List.find?_cons_of_neg (p := fun q : String × α => q.1 == k) _ ha, ih,
          List.find?_cons_of_neg (p := fun q : String × α => q.1 == k) _ ha]

/-- The lookup after a `Map.set`: the stored value under the written key,
otherwise the old lookup. -/
theorem cacheGet_cacheSet {α : Type} (m : CacheMap α) (k' k : String) (v : α) :
    cacheGet (cacheSet m k' v) k =
      if k' == k then some v else cacheGet m k := by
  unfold cacheSet
  by_cases hc : (m.any (fun q => q.1 == k')) = true
  · rw [if_pos hc]
    by_cases hkk : (k' == k) = true
    · have hk : k' = k := by simpa using hkk
      subst hk
      unfold cacheGet
      rw [find?_map_set_eq]
      obtain ⟨p, hp, hpk⟩ := List.any_eq_true.mp hc
      have hfs : (m.find? (fun q => q.1 == k')).isSome :=
        List.find?_isSome.mpr ⟨p, hp, hpk⟩
      obtain ⟨w, hw⟩ := Option.isSome_iff_exists.mp hfs
      simp [hw, hkk]
    · have hkk' : (k' == k) = false := by simpa using hkk
      unfold cacheGet
      rw [find?_map_set_ne _ _ _ _ hkk']
      simp [hkk']
  · rw [if_neg hc]
    unfold cacheGet
    rw [List.find?_append]
    by_cases hkk : (k' == k) = true
    · have hk : k' = k := by simpa using hkk
      subst hk
      have hnone : m.find? (fun q => q.1 == k') = none := by
        rw [List.find?_eq_none]
        intro x hx hxk
        exact hc (List.any_eq_true.mpr ⟨x, hx, hxk⟩)
      simp [hnone, List.find?_cons, hkk]
    · have hkk' : (k' == k) = false := by simpa using hkk
      simp [List.find?_cons, hkk']

/-- Appending one constructed playlist to the log shifts the most-recent lookup
as a `Map.set` does. -/
theorem lastWithId_append_single (log : List Playlist) (p : Playlist)
    (k : String) :
    lastWithId (log ++ [p]) k =
      if p.id == k then some p else lastWithId log k := by
  unfold lastWithId
  rw [List.reverse_append]
  simp only [List.reverse_cons, List.reverse_nil, List.nil_append,
    List.singleton_append]
  by_cases hp : (p.id == k) = true
  · rw [List.find?_cons_of_pos (p := fun q : Playlist => q.id == k) _ hp,
      if_pos hp]
  · rw [List.find?_cons_of_neg (p := fun q : Playlist => q.id == k) _ hp,
      if_neg hp]

/-- One `Map.set` with the entity's own id preserves the cache/log
correspondence. -/
theorem inv_cacheSet (m : CacheMap Playlist) (log : List Playlist)
    (p : Playlist) (h : ∀ k, cacheGet m k = lastWithId log k) (k : String) :
    cacheGet (cacheSet m p.id p) k = lastWithId (log ++ [p]) k := by
  rw [cacheGet_cacheSet, lastWithId_append_single]
  by_cases hk : (p.id == k) = true <;> simp [hk, h k]

/-- The `search` caching loop preserves the cache/log correspondence. -/
theorem inv_foldl (ps : List Playlist) (m : CacheMap Playlist)
    (log : List Playlist) (h : ∀ k, cacheGet m k = lastWithId log k)
    (k : String) :
    cacheGet (ps.foldl (fun m p => cacheSet m p.id p) m) k =
      lastWithId (log ++ ps) k := by
  induction ps generalizing m log with
  | nil => simpa using h k
  | cons p t ih =>
      have h1 := inv_cacheSet m log p h
      simpa [List.append_assoc] using ih (cacheSet m p.id p) (log ++ [p]) h1

/-- One event preserves the cache/log correspondence when caching is on. -/
theorem stepEvent_inv (hE : HandleError) (s : TraceState) (ev : PMEvent)
    (h : ∀ k, cacheGet s.cache k = lastWithId s.log k) :
    ∀ k, cacheGet (stepEvent hE true s ev).cache k =
      lastWithId (stepEvent hE true s ev).log k := by
  intro k
  cases ev with
  | get id force market resp =>
      cases force with
      | false =>
          cases hcg : cacheGet s.cache id with
          | some ex =>
              simpa [stepEvent, PlaylistManager.get, hcg] using h k
          | none =>
              cases resp with
              | ok raw =>
                  simpa [stepEvent, PlaylistManager.get, hcg] using
                    inv_cacheSet s.cache s.log (Playlist.ofRaw raw) h k
              | error e =>
                  cases he : hE e with
                  | ok u =>
                      simpa [stepEvent, PlaylistManager.get, hcg, he] using h k
                  | error err =>
                      simpa [stepEvent, PlaylistManager.get, hcg, he] using h k
      | true =>
          cases resp with
          | ok raw =>
              simpa [stepEvent, PlaylistManager.get] using
                inv_cacheSet s.cache s.log (Playlist.ofRaw raw) h k
          | error e =>
              cases he : hE e with
              | ok u => simpa [stepEvent, PlaylistManager.get, he] using h k
              | error err =>
                  simpa [stepEvent, PlaylistManager.get, he] using h k
  | search q opts resp =>
      cases resp with
      | ok res =>
          simpa [stepEvent, PlaylistManager.search] using
            inv_foldl (res.playlists.items.map Playlist.ofRaw) s.cache s.log h k
      | error e =>
          cases he : hE e with
          | ok u => simpa [stepEvent, PlaylistManager.search, he] using h k
          | error err =>
              simpa [stepEvent, PlaylistManager.search, he] using h k

/-- One event never writes the cache when caching is off. -/
theorem stepEvent_cache_off (hE : HandleError) (s : TraceState) (ev : PMEvent) :
    (stepEvent hE false s ev).cache = s.cache := by
  cases ev with
  | get id force market resp =>
      cases force with
      | false =>
          cases hcg : cacheGet s.cache id with
          | some ex => simp [stepEvent, PlaylistManager.get, hcg]
          | none =>
              cases resp with
              | ok raw => simp [stepEvent, PlaylistManager.get, hcg]
              | error e =>
                  cases he : hE e <;>
                    simp [stepEvent, PlaylistManager.get, hcg, he]
      | true =>
          cases resp with
          | ok raw => simp [stepEvent, PlaylistManager.get]
          | error e =>
              cases he : hE e <;> simp [stepEvent, PlaylistManager.get, he]
  | search q opts resp =>
      cases resp with
      | ok res => simp [stepEvent, PlaylistManager.search]
      | error e =>
          cases he : hE e <;> simp [stepEvent, PlaylistManager.search, he]

/-- The correspondence holds after any caching-on trace suffix from a state that
satisfies it. -/
theorem runTrace_inv_aux (hE : HandleError) (evs : List PMEvent)
    (s : TraceState) (h : ∀ k, cacheGet s.cache k = lastWithId s.log k) :
    ∀ k, cacheGet (evs.foldl (stepEvent hE true) s).cache k =
      lastWithId (evs.foldl (stepEvent hE true) s).log k := by
  induction evs generalizing s with
  | nil => exact h
  | cons ev t ih => exact ih (stepEvent hE true s ev) (stepEvent_inv hE s ev h)

/-- A caching-off trace never touches the cache. -/
theorem runTrace_cache_off_aux (hE : HandleError) (evs : List PMEvent)
    (s : TraceState) : (evs.foldl (stepEvent hE false) s).cache = s.cache := by
  induction evs generalizing s with
  | nil => rfl
  | cons ev t ih =>
      exact (ih (stepEvent hE false s ev)).trans (stepEvent_cache_off hE s ev)

/-- C2: over any sequence of `get`/`search` calls, a value the playlist cache
holds under key `K` carries `K` as its own id and is the most recently
constructed `Playlist` whose id is `K` (every write keys the stored entity by
its own id), and with `cachePlaylists` off the cache is never written at all. -/
theorem C2_cache_invariant (hE : HandleError) (evs : List PMEvent) (k : String)
    (v : Playlist)
    (h : cacheGet (runTrace hE true evs).cache k = some v) :
    v.id = k ∧ lastWithId (runTrace hE true evs).log k = some v ∧
      (runTrace hE false evs).cache = [] := by
  have hinv := runTrace_inv_aux hE evs ⟨[], []⟩ (fun _ => rfl) k
  have hlast : lastWithId (runTrace hE true evs).log k = some v := by
    rw [runTrace] at h ⊢
    rw [← hinv]
    exact h
  refine ⟨?_, hlast, runTrace_cache_off_aux hE evs ⟨[], []⟩⟩
  have hv := List.find?_some hlast
  simpa using hv

/-- Witness for C2: after one concrete forced `get`, the cached value carries
its own id and is the last construction for that id. -/
theorem C2_cache_invariant_witness :
    (⟨"p1", "d"⟩ : Playlist).id = "p1" ∧
    lastWithId (runTrace (fun _ => .ok ()) true
        [.get "p1" true "US" (.ok ⟨"p1", "d"⟩)]).log "p1" =
      some ⟨"p1", "d"⟩ ∧
    (runTrace (fun _ => .ok ()) false
        [.get "p1" true "US" (.ok ⟨"p1", "d"⟩)]).cache = [] :=
  C2_cache_invariant (fun _ => .ok ())
    [.get "p1" true "US" (.ok ⟨"p1", "d"⟩)] "p1" ⟨"p1", "d"⟩ (by rfl)

end SpotifyApiJs
